import Mathlib

/-!
Verification of the Designer-Dreamith recommendation pipeline against its
source (src/app.py). The two external collaborators — the generative-text
service and the image-search service — are modelled as oracles passed to
each function: a generative call yields either a raised exception or a
response object, and an image-search call yields either a raised exception
or the list of result records, each record abstracted to its `image` field
(the only field the source reads). Everything else is translated directly
from the Python source: dict access by `Option`, Python truthiness and
`str.split`/`str.join`/`str.strip` by explicit Lean counterparts.
-/

namespace DesignerDreamith

/-- Python `s.startswith(pre)`: prefix test on the character list. -/
def pyStartsWith (s pre : String) : Bool :=
  pre.data.isPrefixOf s.data

/-- Python `s.strip()` with no argument: drop whitespace from both ends. -/
def pyStrip (s : String) : String :=
  String.mk (((s.data.dropWhile Char.isWhitespace).reverse.dropWhile
    Char.isWhitespace).reverse)

/-- Value of the `image` field of one image-search result record: key
absent, a string, or a non-string value with its Python truthiness
recorded. -/
inductive ImgField where
  | absent : ImgField
  | str : String → ImgField
  | nonstr : Bool → ImgField
deriving DecidableEq, Repr

/-- Python truthiness of the field value as tested by the accessory loop:
an absent key reads as `None` (falsy), the empty string is falsy, and a
non-string value carries its own truthiness. -/
def ImgField.truthy : ImgField → Bool
  | .absent => false
  | .str s => s != ""
  | .nonstr b => b

/-- Validation performed by the primary image loop: the field must be a
string and start with `http`; the URL is returned when the record passes. -/
def ImgField.httpUrl : ImgField → Option String
  | .str s => if pyStartsWith s "http" then some s else none
  | _ => none

/-- All URLs of a record list that pass the primary validation, in order. -/
def validUrls (results : List ImgField) : List String :=
  results.filterMap ImgField.httpUrl

/-- `get_placeholder_image()`. -/
def get_placeholder_image : String :=
  "https://via.placeholder.com/400x500.png?text=Image+Not+Found"

/-- Loop body of `scrape_duckduckgo_images`: walk the service records,
append each URL that passes validation, and stop as soon as the collected
list has reached `max_images` — the stop test runs after every record,
whether or not it was appended. -/
def collectImages : List ImgField → Nat → List String → List String
  | [], _, acc => acc
  | r :: rs, max_images, acc =>
    let acc2 := match r.httpUrl with
      | some u => acc ++ [u]
      | none => acc
    if max_images ≤ acc2.length then acc2 else collectImages rs max_images acc2

/-- `scrape_duckduckgo_images(query, max_images=5)` (the source calls it
with the default cap of 5): on a raised exception, or when no valid URL was
collected, the placeholder repeated `max_images` times; otherwise the
collected list. -/
def scrape_duckduckgo_images (query : String) (max_images : Nat)
    (oracle : String → Except Unit (List ImgField)) : List String :=
  match oracle query with
  | .error _ => List.replicate max_images get_placeholder_image
  | .ok results =>
    let images := collectImages results max_images []
    if images.isEmpty then List.replicate max_images get_placeholder_image
    else images

/-- Python dict assignment on an insertion-ordered association list:
update in place when the key exists, append otherwise. -/
def dictInsert (k : String) (v : ImgField) :
    List (String × ImgField) → List (String × ImgField)
  | [] => [(k, v)]
  | (k2, v2) :: rest =>
    if k2 = k then (k, v) :: rest else (k2, v2) :: dictInsert k v rest

/-- Per-item loop of `fetch_accessory_images`. A single `try` wraps the
whole loop, so an exception raised while looking up one item returns the
map built so far and skips every remaining item. For each item the keyword
string is the item name followed by the word `accessory`, and the first
record with a truthy `image` field is stored under the item name. -/
def fetchAccessoryImagesGo (oracle : String → Except Unit (List ImgField)) :
    List String → List (String × ImgField) → List (String × ImgField)
  | [], acc => acc
  | item :: rest, acc =>
    match oracle (item ++ " accessory") with
    | .error _ => acc
    | .ok results =>
      match results.find? ImgField.truthy with
      | some v => fetchAccessoryImagesGo oracle rest (dictInsert item v acc)
      | none => fetchAccessoryImagesGo oracle rest acc

/-- `fetch_accessory_images(accessories_list)`. -/
def fetch_accessory_images (oracle : String → Except Unit (List ImgField))
    (accessories_list : List String) : List (String × ImgField) :=
  fetchAccessoryImagesGo oracle accessories_list []

/-- Response object of one generative-text call: whether any candidate
survived, and the response text. In the client library reading `.text` of a
response with no candidates raises; every read in the source either guards
on `candidates` first or sits inside the `try`, so the model exposes the
pair and each call site handles the no-candidate case the way its control
flow does. -/
structure GenResponse where
  candidates : Bool
  text : String
deriving DecidableEq, Repr

/-- Outcome of one generative-text call: a raised exception or a response. -/
abbrev GenOracle := Except Unit GenResponse

/-- Python dict of the five preference fields; a field absent from the dict
reads as `none` (`dict.get` returns `None`). -/
structure Prefs where
  color : Option String
  gender : Option String
  type : Option String
  occasion : Option String
  style : Option String
deriving DecidableEq, Repr

/-- The empty dict. -/
def emptyPrefs : Prefs := ⟨none, none, none, none, none⟩

/-- Python `" ".join(l)`. -/
def pyJoinSpace : List String → String
  | [] => ""
  | [t] => t
  | t :: u :: rest => t ++ " " ++ pyJoinSpace (u :: rest)

/-- Python `filter(None, l)` over optional strings: drops `None` and empty
strings, keeping every truthy entry. -/
def pyFilterTruthy (l : List (Option String)) : List String :=
  l.filterMap fun o => match o with
    | some s => if s = "" then none else some s
    | none => none

/-- The for-occasion entry of the field list: the literal `for ` prefix
applied to the occasion when the occasion is truthy, otherwise the empty
string. -/
def occasionEntry : Option String → String
  | some s => if s = "" then "" else "for " ++ s
  | none => ""

/-- `construct_query(prefs)`: join the truthy entries of the fixed field
list — color, style, type, for-occasion, gender — with single spaces and
strip the result. -/
def construct_query (prefs : Prefs) : String :=
  pyStrip (pyJoinSpace (pyFilterTruthy
    [prefs.color, prefs.style, prefs.type,
     some (occasionEntry prefs.occasion), prefs.gender]))

/-- Python `str.split()` with no separator, on the character list: skip
whitespace, cut maximal non-whitespace runs, never produce an empty
token. -/
def splitWSChars : List Char → List String
  | [] => []
  | c :: cs =>
    if c.isWhitespace then splitWSChars cs
    else
      String.mk (c :: cs.takeWhile (fun d => !d.isWhitespace)) ::
        splitWSChars (cs.dropWhile (fun d => !d.isWhitespace))
termination_by l => l.length
decreasing_by
  · simp
  · have h : (cs.dropWhile (fun d => !d.isWhitespace)).length ≤ cs.length :=
      (List.dropWhile_sublist _).length_le
    simp
    omega

/-- Python `s.split()`. -/
def pySplit (s : String) : List String := splitWSChars s.data

/-- `refine_query_gemini(raw_query)`: a raised exception or a no-candidate
response falls back to the raw query; otherwise the stripped response text
is cut to its first eight whitespace tokens and rejoined with single
spaces, an empty rejoin falling back to the raw query as well. -/
def refine_query_gemini (raw_query : String) (oracle : GenOracle) : String :=
  match oracle with
  | .error _ => raw_query
  | .ok response =>
    if response.candidates then
      let refined := pyStrip response.text
      let joined := pyJoinSpace ((pySplit refined).take 8)
      if joined = "" then raw_query else joined
    else raw_query

/-- Fixed fallback sentence of `generate_description`. -/
def descriptionFallback : String := "A stylish look for your preferences."

/-- `generate_description(prefs)`: the stripped response text when the
response has candidates; the fixed fallback sentence when it has none or
the call raises. The preferences only shape the prompt. -/
def generate_description (prefs : Prefs) (oracle : GenOracle) : String :=
  match oracle with
  | .error _ => descriptionFallback
  | .ok response =>
    if response.candidates then pyStrip response.text else descriptionFallback

/-- Fixed fallback sentence of `generate_accessories`. -/
def accessoriesFallback : String :=
  "Some matching accessories to enhance your look beautifully!"

/-- `generate_accessories(outfit_desc, gender, items)`: the stripped
response text on success; the fixed fallback when the call raises —
including the raise, inside the `try`, of reading `.text` on a
no-candidate response. The arguments only shape the prompt. -/
def generate_accessories (outfit_desc gender : String) (items : List String)
    (oracle : GenOracle) : String :=
  match oracle with
  | .error _ => accessoriesFallback
  | .ok response =>
    if response.candidates then pyStrip response.text else accessoriesFallback

/-- Form fields read by the `/recommend` route: the five preference inputs
(a missing input reads as the empty string) and, when the key was posted,
the accessory item list. -/
structure FormData where
  color : String
  gender : String
  type : String
  occasion : String
  style : String
  accessory_items : Option (List String)
deriving DecidableEq, Repr

/-- The `user_preferences` dict built by `/recommend`: each form field
stripped, every key present. -/
def prefsOfForm (f : FormData) : Prefs :=
  ⟨some (pyStrip f.color), some (pyStrip f.gender), some (pyStrip f.type),
   some (pyStrip f.occasion), some (pyStrip f.style)⟩

/-- Keyword arguments of the `recommendation.html` render in `/recommend`;
the serialized preferences are kept as the dict they serialize. -/
structure RecommendResponse where
  query : String
  image_urls : List String
  description : String
  preferences : Prefs
  accessories_response : Option String
deriving DecidableEq, Repr

/-- The `/recommend` route body after the session check: build the
preference dict, construct the raw query, refine it only when the API key
is configured, search images with the refined query (cap 5), describe the
outfit, and, when accessory items were posted, generate the accessory text
from the refined query, the stripped gender field, and the item list. -/
def recommend (form : FormData) (apiKeyPresent : Bool)
    (refineOracle descOracle accOracle : GenOracle)
    (imageOracle : String → Except Unit (List ImgField)) : RecommendResponse :=
  let user_preferences := prefsOfForm form
  let raw_query := construct_query user_preferences
  let refined_query :=
    if apiKeyPresent then refine_query_gemini raw_query refineOracle
    else raw_query
  let image_urls := scrape_duckduckgo_images refined_query 5 imageOracle
  let description := generate_description user_preferences descOracle
  let accessories_response := form.accessory_items.map fun items =>
    generate_accessories refined_query (user_preferences.gender.getD "")
      items accOracle
  ⟨refined_query, image_urls, description, user_preferences,
   accessories_response⟩

/-- Parse outcome of the serialized preferences blob posted to
`/accessories`: key missing (the supplied default blob parses to the empty
dict), present but unparseable (`JSONDecodeError`), or parsed to a
preference dict. -/
inductive PrefsBlob where
  | missing : PrefsBlob
  | malformed : PrefsBlob
  | parsed : Prefs → PrefsBlob
deriving DecidableEq, Repr

/-- Keyword arguments of the `accessories.html` render in `/accessories`. -/
structure AccessoriesResponse where
  outfit : String
  accessories : String
  accessory_images : List (String × ImgField)
deriving DecidableEq, Repr

/-- The `/accessories` route body: a missing blob parses (as the empty-dict
default) to the empty dict and a malformed one is recovered to it (the
`JSONDecodeError` is caught and logged); the outfit string is rebuilt by
`construct_query`, the gender defaults to `unisex` when the key is absent,
and the accessory text and per-item image map are produced by the two
clients. -/
def accessories (blob : PrefsBlob) (items : List String)
    (accOracle : GenOracle)
    (imageOracle : String → Except Unit (List ImgField)) : AccessoriesResponse :=
  let prefs := match blob with
    | .missing => emptyPrefs
    | .malformed => emptyPrefs
    | .parsed p => p
  let outfit_desc := construct_query prefs
  let gender := prefs.gender.getD "unisex"
  ⟨outfit_desc, generate_accessories outfit_desc gender items accOracle,
   fetch_accessory_images imageOracle items⟩

/-- Modelled from the spec wording of the Query Builder contract: the five
field values (an absent field read as empty), with the for-occasion phrase
rendered only when the occasion is non-empty, in the fixed order color,
style, type, for-occasion, gender, empty fields skipped, joined by single
spaces, then trimmed. -/
def build_query_spec (prefs : Prefs) : String :=
  pyStrip (pyJoinSpace (([prefs.color.getD "", prefs.style.getD "",
    prefs.type.getD "",
    if prefs.occasion.getD "" = "" then ""
    else "for " ++ prefs.occasion.getD "",
    prefs.gender.getD ""]).filter (fun s => s != "")))

/-- Bind every absent preference key to the empty string. -/
def fillDefaults (p : Prefs) : Prefs :=
  ⟨some (p.color.getD ""), some (p.gender.getD ""), some (p.type.getD ""),
   some (p.occasion.getD ""), some (p.style.getD "")⟩

/-! Helper lemmas about the string primitives. -/

theorem splitWSChars_nil : splitWSChars [] = [] := by
  rw [splitWSChars.eq_def]

theorem splitWSChars_cons_ws {c : Char} (cs : List Char)
    (h : c.isWhitespace = true) : splitWSChars (c :: cs) = splitWSChars cs := by
  conv_lhs => rw [splitWSChars.eq_def]
  simp [h]

theorem splitWSChars_cons_not {c : Char} (cs : List Char)
    (h : c.isWhitespace = false) :
    splitWSChars (c :: cs) =
      String.mk (c :: cs.takeWhile (fun d => !d.isWhitespace)) ::
        splitWSChars (cs.dropWhile (fun d => !d.isWhitespace)) := by
  conv_lhs => rw [splitWSChars.eq_def]
  simp [h]

theorem takeWhile_all {α : Type} {p : α → Bool} (l : List α)
    (h : ∀ a ∈ l, p a = true) : l.takeWhile p = l := by
  induction l with
  | nil => rfl
  | cons a t ih =>
    have ha := h a (by simp)
    simp [List.takeWhile_cons_of_pos ha]
    exact fun x hx => h x (by simp [hx])

theorem dropWhile_all {α : Type} {p : α → Bool} (l : List α)
    (h : ∀ a ∈ l, p a = true) : l.dropWhile p = [] := by
  induction l with
  | nil => rfl
  | cons a t ih =>
    have ha := h a (by simp)
    simp [List.dropWhile_cons_of_pos ha]
    exact fun x hx => h x (by simp [hx])

theorem splitWSChars_token_space (t tail : List Char) (hne : t ≠ [])
    (hcl : ∀ c ∈ t, c.isWhitespace = false) :
    splitWSChars (t ++ ' ' :: tail) = String.mk t :: splitWSChars tail := by
  obtain ⟨c, t2, rfl⟩ : ∃ c t2, t = c :: t2 := by
    cases t with
    | nil => exact absurd rfl hne
    | cons c t2 => exact ⟨c, t2, rfl⟩
  have hc : c.isWhitespace = false := hcl c (by simp)
  rw [List.cons_append, splitWSChars_cons_not _ hc]
  have hall : ∀ d ∈ t2, (fun d => !d.isWhitespace) d = true := by
    intro d hd
    simp [hcl d (by simp [hd])]
  have htake : (t2 ++ ' ' :: tail).takeWhile (fun d => !d.isWhitespace) = t2 := by
    rw [List.takeWhile_append_of_pos hall]
    simp
  have hdrop : (t2 ++ ' ' :: tail).dropWhile (fun d => !d.isWhitespace)
      = ' ' :: tail := by
    rw [List.dropWhile_append_of_pos hall]
    simp
  rw [htake, hdrop, splitWSChars_cons_ws _ (by simp)]

theorem splitWSChars_single_token (t : List Char) (hne : t ≠ [])
    (hcl : ∀ c ∈ t, c.isWhitespace = false) :
    splitWSChars t = [String.mk t] := by
  obtain ⟨c, t2, rfl⟩ : ∃ c t2, t = c :: t2 := by
    cases t with
    | nil => exact absurd rfl hne
    | cons c t2 => exact ⟨c, t2, rfl⟩
  have hc : c.isWhitespace = false := hcl c (by simp)
  rw [splitWSChars_cons_not _ hc]
  have hall : ∀ d ∈ t2, (fun d => !d.isWhitespace) d = true := by
    intro d hd
    simp [hcl d (by simp [hd])]
  rw [takeWhile_all _ hall, dropWhile_all _ hall, splitWSChars_nil]

theorem splitWSChars_clean : ∀ n (cs : List Char), cs.length ≤ n →
    ∀ t ∈ splitWSChars cs, t.data ≠ [] ∧ ∀ c ∈ t.data, c.isWhitespace = false := by
  intro n
  induction n with
  | zero =>
    intro cs hlen
    have : cs = [] := by
      cases cs with
      | nil => rfl
      | cons c cs => simp at hlen
    subst this
    simp [splitWSChars_nil]
  | succ n ih =>
    intro cs hlen t ht
    cases cs with
    | nil => simp [splitWSChars_nil] at ht
    | cons c cs =>
      by_cases hws : c.isWhitespace = true
      · rw [splitWSChars_cons_ws _ hws] at ht
        exact ih cs (by simp at hlen; omega) t ht
      · rw [splitWSChars_cons_not _ (by simpa using hws)] at ht
        rcases List.mem_cons.mp ht with rfl | hmem
        ·
          constructor
          · simp
          · intro d hd
            simp at hd
            rcases hd with rfl | hd
            · simpa using hws
            · have := List.mem_takeWhile_imp hd
              simpa using this
        · have hdl : (cs.dropWhile (fun d => !d.isWhitespace)).length ≤ n := by
            have h1 : (cs.dropWhile (fun d => !d.isWhitespace)).length ≤ cs.length :=
              (List.dropWhile_sublist _).length_le
            simp at hlen
            omega
          exact ih _ hdl t hmem

theorem data_space : (" " : String).data = [' '] := rfl

theorem data_empty : ("" : String).data = [] := rfl

theorem pyJoinSpace_data_cons (t u : String) (rest : List String) :
    (pyJoinSpace (t :: u :: rest)).data =
      t.data ++ ' ' :: (pyJoinSpace (u :: rest)).data := by
  show (t ++ " " ++ pyJoinSpace (u :: rest)).data = _
  simp [String.data_append, data_space]

theorem pySplit_pyJoinSpace : ∀ ts : List String,
    (∀ t ∈ ts, t.data ≠ [] ∧ ∀ c ∈ t.data, c.isWhitespace = false) →
    pySplit (pyJoinSpace ts) = ts := by
  intro ts
  induction ts with
  | nil =>
    intro _
    show splitWSChars ("" : String).data = []
    rw [data_empty, splitWSChars_nil]
  | cons t rest ih =>
    intro h
    cases rest with
    | nil =>
      show splitWSChars t.data = [t]
      have ht := h t (by simp)
      rw [splitWSChars_single_token t.data ht.1 ht.2]
    | cons u rest2 =>
      show splitWSChars (pyJoinSpace (t :: u :: rest2)).data = t :: u :: rest2
      rw [pyJoinSpace_data_cons]
      have ht := h t (by simp)
      rw [splitWSChars_token_space t.data _ ht.1 ht.2]
      have := ih (fun x hx => h x (by simp [List.mem_cons] at hx ⊢; tauto))
      show String.mk t.data :: pySplit (pyJoinSpace (u :: rest2)) = _
      rw [this]

theorem pyJoinSpace_ne_empty : ∀ ts : List String, ts ≠ [] →
    (∀ t ∈ ts, t.data ≠ []) → pyJoinSpace ts ≠ "" := by
  intro ts hne hdata
  cases ts with
  | nil => exact absurd rfl hne
  | cons t rest =>
    cases rest with
    | nil =>
      intro heq
      have ht : t = "" := heq
      exact hdata t (by simp) (by rw [ht])
    | cons u rest2 =>
      intro heq
      have hd : (pyJoinSpace (t :: u :: rest2)).data = [] := by rw [heq]
      rw [pyJoinSpace_data_cons] at hd
      rcases List.append_eq_nil.mp hd with ⟨h1, h2⟩
      exact hdata t (by simp) h1

theorem collectImages_eq_take : ∀ (rs : List ImgField) (n : Nat) (acc : List String),
    acc.length < n → collectImages rs n acc = (acc ++ validUrls rs).take n := by
  intro rs
  induction rs with
  | nil =>
    intro n acc hacc
    simp [collectImages, validUrls]
    exact Nat.le_of_lt hacc
  | cons r rs ih =>
    intro n acc hacc
    cases hr : r.httpUrl with
    | none =>
      have hif : ¬ n ≤ acc.length := by omega
      simp only [collectImages, hr, hif, if_false]
      rw [ih n acc hacc]
      simp [validUrls, List.filterMap_cons_none hr]
    | some u =>
      by_cases hbr : n ≤ (acc ++ [u]).length
      · have hlen : (acc ++ [u]).length = n := by
          simp at hbr ⊢
          omega
        simp only [collectImages, hr, hbr, if_true]
        have : acc ++ validUrls (r :: rs) = (acc ++ [u]) ++ validUrls rs := by
          simp [validUrls, List.filterMap_cons_some hr]
        rw [this, List.take_left' hlen]
      · have hlt : (acc ++ [u]).length < n := by omega
        simp only [collectImages, hr, hbr, if_false]
        rw [ih n (acc ++ [u]) hlt]
        simp [validUrls, List.filterMap_cons_some hr]


theorem pyFilterTruthy_eq_filter : ∀ l : List (Option String),
    pyFilterTruthy l = (l.map (fun o => o.getD "")).filter (fun s => s != "") := by
  intro l
  induction l with
  | nil => rfl
  | cons o rest ih =>
    cases o with
    | none => simpa [pyFilterTruthy, List.filterMap_cons, List.filter_cons] using ih
    | some s =>
      by_cases hs : s = ""
      · subst hs
        simpa [pyFilterTruthy, List.filterMap_cons, List.filter_cons] using ih
      · simp only [pyFilterTruthy, List.filterMap_cons] at ih ⊢
        simp [hs, List.filter_cons, ih]

theorem occasionEntry_eq (o : Option String) :
    occasionEntry o =
      if o.getD "" = "" then "" else "for " ++ o.getD "" := by
  cases o with
  | none => simp [occasionEntry]
  | some s => simp [occasionEntry]

theorem fetchGo_error_skips_rest (oracle : String → Except Unit (List ImgField))
    (item : String) (post : List String)
    (herr : oracle (item ++ " accessory") = .error ()) :
    ∀ (pre : List String) (acc : List (String × ImgField)),
      (∀ i ∈ pre, ∃ rs, oracle (i ++ " accessory") = .ok rs) →
      fetchAccessoryImagesGo oracle (pre ++ item :: post) acc =
        fetchAccessoryImagesGo oracle pre acc := by
  intro pre
  induction pre with
  | nil =>
    intro acc _
    simp [fetchAccessoryImagesGo, herr]
  | cons i pre ih =>
    intro acc hpre
    obtain ⟨rs, hok⟩ := hpre i (by simp)
    cases hfound : rs.find? ImgField.truthy with
    | none =>
      simp only [List.cons_append, fetchAccessoryImagesGo, hok, hfound]
      exact ih _ fun x hx => hpre x (by simp [hx])
    | some v =>
      simp only [List.cons_append, fetchAccessoryImagesGo, hok, hfound]
      exact ih _ fun x hx => hpre x (by simp [hx])

theorem mem_dictInsert (k : String) (v : ImgField) (a : String × ImgField) :
    ∀ l : List (String × ImgField),
      a ∈ dictInsert k v l → a ∈ l ∨ a = (k, v) := by
  intro l
  induction l with
  | nil => simp [dictInsert]
  | cons p rest ih =>
    intro ha
    by_cases hk : p.1 = k
    · simp only [dictInsert] at ha
      rcases p with ⟨k2, v2⟩
      simp only at hk
      rw [if_pos hk] at ha
      rcases List.mem_cons.mp ha with rfl | hmem
      · right; rfl
      · left; simp [hmem]
    · rcases p with ⟨k2, v2⟩
      simp only at hk
      simp only [dictInsert, if_neg hk] at ha
      rcases List.mem_cons.mp ha with rfl | hmem
      · left; simp
      · rcases ih hmem with hm | hm
        · left; simp [hm]
        · right; exact hm

theorem fetchGo_mem_truthy (oracle : String → Except Unit (List ImgField)) :
    ∀ (items : List String) (acc : List (String × ImgField))
      (a : String × ImgField),
      a ∈ fetchAccessoryImagesGo oracle items acc →
      a ∈ acc ∨ a.2.truthy = true := by
  intro items
  induction items with
  | nil =>
    intro acc a ha
    exact Or.inl ha
  | cons item rest ih =>
    intro acc a ha
    cases hcall : oracle (item ++ " accessory") with
    | error e =>
      simp only [fetchAccessoryImagesGo, hcall] at ha
      exact Or.inl ha
    | ok rs =>
      cases hfound : rs.find? ImgField.truthy with
      | none =>
        simp only [fetchAccessoryImagesGo, hcall, hfound] at ha
        exact ih _ a ha
      | some v =>
        simp only [fetchAccessoryImagesGo, hcall, hfound] at ha
        rcases ih _ a ha with hm | hm
        · rcases mem_dictInsert _ _ _ _ hm with hm2 | hm2
          · exact Or.inl hm2
          · right
            rw [hm2]
            exact List.find?_some hfound
        · exact Or.inr hm


/-- Claim C6: `construct_query` is a deterministic total function of the
Preference Set that concatenates, in the fixed order color, style, type,
for-occasion phrase (only when the occasion is non-empty), gender, skipping
empty fields, joined by single spaces and stripped; the all-empty
Preference Set yields the empty string, and the scenario-A preferences
yield the expected phrase. -/
theorem construct_query_matches_spec :
    (∀ p : Prefs, construct_query p = build_query_spec p) ∧
    construct_query emptyPrefs = "" ∧
    construct_query
        ⟨some "red", some "female", some "dress", some "party", some "elegant"⟩
      = "red elegant dress for party female" := by
  refine ⟨?_, rfl, rfl⟩
  intro p
  unfold construct_query build_query_spec
  rw [pyFilterTruthy_eq_filter]
  simp only [occasionEntry_eq]
  simp

/-- Claim C10: `construct_query` is total on mappings with absent keys (no
exception path exists), and binding absent keys to the empty string leaves
the output unchanged — hence two mappings that agree after that defaulting
produce the same output, which is what the accessory phase relies on when
it feeds a parsed, possibly empty, mapping to the Query Builder. -/
theorem construct_query_missing_keys_default :
    (∀ p : Prefs, construct_query p = construct_query (fillDefaults p)) ∧
    (∀ p q : Prefs, fillDefaults p = fillDefaults q →
      construct_query p = construct_query q) := by
  have h1 : ∀ p : Prefs, construct_query p = construct_query (fillDefaults p) := by
    intro p
    unfold construct_query fillDefaults
    rw [pyFilterTruthy_eq_filter, pyFilterTruthy_eq_filter]
    simp only [occasionEntry_eq]
    simp
  refine ⟨h1, ?_⟩
  intro p q h
  rw [h1 p, h1 q, h]

/-- Witness for C10: a dict without the color key and the same dict with
color bound to the empty string produce the same query. -/
theorem construct_query_missing_keys_default_witness :
    construct_query ⟨none, some "female", none, none, none⟩ =
      construct_query ⟨some "", some "female", none, none, none⟩ :=
  construct_query_missing_keys_default.2 _ _ rfl

/-- Claim C5: a missing or malformed serialized preferences blob does not
fail the accessory phase: the route behaves exactly as with an empty
Preference Set — empty outfit string, gender defaulted to `unisex` in the
accessory-text call, and the image map still computed; being a total
function, the route surfaces no parse failure. -/
theorem accessories_parse_failure (blob : PrefsBlob) (items : List String)
    (accOracle : GenOracle)
    (imageOracle : String → Except Unit (List ImgField))
    (h : blob = .missing ∨ blob = .malformed) :
    accessories blob items accOracle imageOracle =
      accessories (.parsed emptyPrefs) items accOracle imageOracle ∧
    (accessories blob items accOracle imageOracle).accessories =
      generate_accessories "" "unisex" items accOracle ∧
    (accessories blob items accOracle imageOracle).accessory_images =
      fetch_accessory_images imageOracle items ∧
    (accessories blob items accOracle imageOracle).outfit = "" := by
  rcases h with rfl | rfl <;> exact ⟨rfl, rfl, rfl, rfl⟩

/-- Witness for C5 at a concrete malformed blob: the accessory text is
generated with the empty outfit and unisex gender, and the image map is
still assembled. -/
theorem accessories_parse_failure_witness :
    (accessories .malformed ["belt"] (.error ())
        (fun _ => .ok [ImgField.str "http://b"])).accessories =
      generate_accessories "" "unisex" ["belt"] (.error ()) ∧
    (accessories .malformed ["belt"] (.error ())
        (fun _ => .ok [ImgField.str "http://b"])).accessory_images =
      fetch_accessory_images (fun _ => .ok [ImgField.str "http://b"]) ["belt"] :=
  ⟨(accessories_parse_failure _ _ _ _ (Or.inr rfl)).2.1,
   (accessories_parse_failure _ _ _ _ (Or.inr rfl)).2.2.1⟩

/-- Claim C7: `generate_description` returns the fixed fallback sentence
whenever the call raises or the response carries no surviving candidate
(the service interface's blocked/empty outcome); being a total function it
never raises to its caller. -/
theorem generate_description_fallback (prefs : Prefs) (oracle : GenOracle)
    (h : oracle = .error () ∨ ∃ r, oracle = .ok r ∧ r.candidates = false) :
    generate_description prefs oracle = descriptionFallback := by
  rcases h with rfl | ⟨r, rfl, hr⟩
  · rfl
  · simp [generate_description, hr]

/-- Witness for C7: the fallback on a raised call and on a blocked
response. -/
theorem generate_description_fallback_witness :
    generate_description emptyPrefs (.error ()) = descriptionFallback ∧
    generate_description emptyPrefs (.ok ⟨false, "text"⟩) = descriptionFallback :=
  ⟨generate_description_fallback emptyPrefs _ (Or.inl rfl),
   generate_description_fallback emptyPrefs _ (Or.inr ⟨⟨false, "text"⟩, rfl, rfl⟩)⟩


/-- Claim C8: with the text-generation credential absent — so the
refinement branch is skipped and the generation calls, were they made,
raise — the request still succeeds: the raw query is used unchanged end to
end (as the response query and as the image-search keyword), and the
description and accessory text degrade to their fixed fallbacks. -/
theorem recommend_no_credential (form : FormData)
    (refineOracle descOracle accOracle : GenOracle)
    (imageOracle : String → Except Unit (List ImgField))
    (hd : descOracle = .error ()) (ha : accOracle = .error ()) :
    (recommend form false refineOracle descOracle accOracle imageOracle).query =
      construct_query (prefsOfForm form) ∧
    (recommend form false refineOracle descOracle accOracle imageOracle).image_urls =
      scrape_duckduckgo_images (construct_query (prefsOfForm form)) 5 imageOracle ∧
    (recommend form false refineOracle descOracle accOracle imageOracle).description =
      descriptionFallback ∧
    ∀ items, form.accessory_items = some items →
      (recommend form false refineOracle descOracle accOracle
          imageOracle).accessories_response = some accessoriesFallback := by
  subst hd
  subst ha
  refine ⟨rfl, rfl, rfl, ?_⟩
  intro items h
  simp [recommend, h, generate_accessories]

/-- Witness for C8 at a concrete form with accessory items: description and
accessory text are the fixed fallbacks. -/
theorem recommend_no_credential_witness :
    (recommend ⟨"red", "female", "dress", "party", "elegant", some ["watch"]⟩
        false (.error ()) (.error ()) (.error ())
        (fun _ => .error ())).description = descriptionFallback ∧
    (recommend ⟨"red", "female", "dress", "party", "elegant", some ["watch"]⟩
        false (.error ()) (.error ()) (.error ())
        (fun _ => .error ())).accessories_response = some accessoriesFallback :=
  ⟨(recommend_no_credential _ _ _ _ _ rfl rfl).2.2.1,
   (recommend_no_credential _ _ _ _ _ rfl rfl).2.2.2 ["watch"] rfl⟩

/-- Scenario-A form with a requested accessory item. -/
def formWatch : FormData :=
  ⟨"red", "female", "dress", "party", "elegant", some ["watch"]⟩

/-- Image-search oracle that answers every keyword with one valid record. -/
def imgOracleW : String → Except Unit (List ImgField) :=
  fun _ => .ok [ImgField.str "http://w"]

/-- Claim C3 counterexample: accessory items are supplied alongside the
Phase 1 preferences and the image-search service would give the accessory
image map a watch entry, yet the rendered response's accessory component is
exactly the accessory text — the response embeds no accessory image map
anywhere (`fetch_accessory_images` is never called on this path), refuting
the claim that the full accessory-phase output is embedded. -/
theorem recommend_embeds_no_accessory_map :
    (recommend formWatch false (.error ()) (.error ()) (.error ())
        imgOracleW).accessories_response = some accessoriesFallback ∧
    fetch_accessory_images imgOracleW ["watch"] =
      [("watch", ImgField.str "http://w")] :=
  ⟨rfl, rfl⟩

/-- Claim C3 amended: when accessory items are supplied alongside the Phase
1 preferences, the embedded Phase 2 output is only the accessory text,
produced by `generate_accessories` from the refined query, the stripped
gender field, and the item list; no accessory image map is assembled on
this path. -/
theorem recommend_accessories_text_only (form : FormData) (key : Bool)
    (refineOracle descOracle accOracle : GenOracle)
    (imageOracle : String → Except Unit (List ImgField)) (items : List String)
    (h : form.accessory_items = some items) :
    (recommend form key refineOracle descOracle accOracle
        imageOracle).accessories_response =
      some (generate_accessories
        ((recommend form key refineOracle descOracle accOracle imageOracle).query)
        (pyStrip form.gender) items accOracle) := by
  simp [recommend, h, prefsOfForm]

/-- Witness for C3 (amended) at the concrete form. -/
theorem recommend_accessories_text_only_witness :
    (recommend formWatch false (.error ()) (.error ()) (.error ())
        imgOracleW).accessories_response =
      some (generate_accessories
        ((recommend formWatch false (.error ()) (.error ()) (.error ())
          imgOracleW).query)
        (pyStrip "female") ["watch"] (.error ())) :=
  recommend_accessories_text_only formWatch false _ _ _ _ ["watch"] rfl

/-- Claim C4 counterexample: with a nine-token raw query and a raised
service call, refine returns the raw query unchanged — nine
whitespace-separated tokens, more than eight. -/
theorem refine_query_gemini_exceeds_8 :
    refine_query_gemini "a b c d e f g h i" (.error ()) = "a b c d e f g h i" ∧
    ¬ ((pySplit (refine_query_gemini "a b c d e f g h i"
        (.error ()))).length ≤ 8) := by
  have hs : pySplit "a b c d e f g h i" =
      ["a", "b", "c", "d", "e", "f", "g", "h", "i"] := by
    have h : "a b c d e f g h i" =
        pyJoinSpace ["a", "b", "c", "d", "e", "f", "g", "h", "i"] := rfl
    rw [h, pySplit_pyJoinSpace _ (by decide)]
  refine ⟨rfl, ?_⟩
  have h2 : refine_query_gemini "a b c d e f g h i" (.error ()) =
      "a b c d e f g h i" := rfl
  rw [h2, hs]
  decide

/-- Claim C4 amended: for a non-empty query the result is never empty; a
raised call, a blocked response, or a whitespace-only response text returns
the raw query unchanged — which, as the counterexample shows, may exceed
eight tokens; a usable response yields exactly the first at-most-eight
tokens of the stripped response text rejoined by single spaces, hence at
most eight tokens. -/
theorem refine_query_gemini_spec (raw : String) (oracle : GenOracle)
    (hraw : raw ≠ "") :
    refine_query_gemini raw oracle ≠ "" ∧
    (oracle = .error () → refine_query_gemini raw oracle = raw) ∧
    (∀ r, oracle = .ok r → r.candidates = false →
      refine_query_gemini raw oracle = raw) ∧
    (∀ r, oracle = .ok r → r.candidates = true →
      pySplit (pyStrip r.text) = [] → refine_query_gemini raw oracle = raw) ∧
    (∀ r, oracle = .ok r → r.candidates = true →
      pySplit (pyStrip r.text) ≠ [] →
      refine_query_gemini raw oracle =
        pyJoinSpace ((pySplit (pyStrip r.text)).take 8) ∧
      (pySplit (refine_query_gemini raw oracle)).length ≤ 8) := by
  refine ⟨?_, ?_, ?_, ?_, ?_⟩
  · cases oracle with
    | error e => exact hraw
    | ok r =>
      by_cases hc : r.candidates
      · simp only [refine_query_gemini, hc, if_true]
        split
        · exact hraw
        · assumption
      · simp only [refine_query_gemini, hc, if_false]
        exact hraw
  · intro h
    subst h
    rfl
  · intro r h hc
    subst h
    simp [refine_query_gemini, hc]
  · intro r h hc hsplit
    subst h
    simp [refine_query_gemini, hc, hsplit, pyJoinSpace]
  · intro r h hc hne
    subst h
    have hclean : ∀ t ∈ pySplit (pyStrip r.text),
        t.data ≠ [] ∧ ∀ c ∈ t.data, c.isWhitespace = false :=
      fun t ht =>
        splitWSChars_clean (pyStrip r.text).data.length (pyStrip r.text).data
          le_rfl t ht
    have h8ne : (pySplit (pyStrip r.text)).take 8 ≠ [] := by
      intro hcon
      rcases List.take_eq_nil_iff.mp hcon with h0 | h0
      · exact absurd h0 (by omega)
      · exact hne h0
    have hcleanTake : ∀ t ∈ (pySplit (pyStrip r.text)).take 8,
        t.data ≠ [] ∧ ∀ c ∈ t.data, c.isWhitespace = false :=
      fun t ht => hclean t (List.mem_of_mem_take ht)
    have hjne : pyJoinSpace ((pySplit (pyStrip r.text)).take 8) ≠ "" :=
      pyJoinSpace_ne_empty _ h8ne fun t ht => (hcleanTake t ht).1
    have hres : refine_query_gemini raw (.ok r) =
        pyJoinSpace ((pySplit (pyStrip r.text)).take 8) := by
      simp only [refine_query_gemini, hc, if_true]
      rw [if_neg hjne]
    refine ⟨hres, ?_⟩
    rw [hres, pySplit_pyJoinSpace _ hcleanTake]
    exact List.length_take_le 8 _

/-- Witness for C4 (amended) at concrete inputs: a raised call returns the
non-empty raw query unchanged. -/
theorem refine_query_gemini_spec_witness :
    ("red dress" : String) ≠ "" ∧
    refine_query_gemini "red dress" (.error ()) = "red dress" :=
  ⟨by decide, (refine_query_gemini_spec "red dress" (.error ())
    (by decide)).2.1 rfl⟩


/-- Claim C1 counterexample: with the cap 5 and a service reply containing
exactly one valid record, the result is that single URL — length 1, not 5 —
refuting never-shorter. -/
theorem scrape_returns_short_list :
    scrape_duckduckgo_images "dress" 5
        (fun _ => .ok [ImgField.str "http://a"]) = ["http://a"] ∧
    (scrape_duckduckgo_images "dress" 5
        (fun _ => .ok [ImgField.str "http://a"])).length ≠ 5 :=
  ⟨rfl, by decide⟩

/-- Claim C1 amended: for a cap of at least 1, the result is the
placeholder repeated `max_images` times when the call raises or yields no
valid URL, and otherwise exactly the first `min max_images k` of the `k`
valid URLs the service yielded — so the length equals the cap only in the
raise and zero-valid cases or when `k ≥ max_images`; for `0 < k <
max_images` the result is shorter than the cap. -/
theorem scrape_duckduckgo_images_spec (query : String) (max_images : Nat)
    (oracle : String → Except Unit (List ImgField)) (hn : 1 ≤ max_images) :
    (∀ e, oracle query = .error e →
      scrape_duckduckgo_images query max_images oracle =
        List.replicate max_images get_placeholder_image) ∧
    (∀ results, oracle query = .ok results → validUrls results = [] →
      scrape_duckduckgo_images query max_images oracle =
        List.replicate max_images get_placeholder_image) ∧
    (∀ results, oracle query = .ok results → validUrls results ≠ [] →
      scrape_duckduckgo_images query max_images oracle =
        (validUrls results).take max_images ∧
      (scrape_duckduckgo_images query max_images oracle).length =
        min max_images (validUrls results).length) := by
  refine ⟨?_, ?_, ?_⟩
  · intro e h
    simp [scrape_duckduckgo_images, h]
  · intro results h hv
    have hc := collectImages_eq_take results max_images [] (by simp; omega)
    simp [scrape_duckduckgo_images, h, hc, hv]
  · intro results h hv
    have hc : collectImages results max_images [] =
        (validUrls results).take max_images := by
      have := collectImages_eq_take results max_images [] (by simp; omega)
      simpa using this
    have htake : (validUrls results).take max_images ≠ [] := by
      intro hcon
      rcases List.take_eq_nil_iff.mp hcon with h0 | h0
      · exact absurd h0 (by omega)
      · exact hv h0
    have hmain : scrape_duckduckgo_images query max_images oracle =
        (validUrls results).take max_images := by
      simp only [scrape_duckduckgo_images, h, hc]
      simp [List.isEmpty_iff, htake]
    refine ⟨hmain, ?_⟩
    rw [hmain, List.length_take]

/-- Witness for C1 (amended): a raising service call yields five
placeholder copies. -/
theorem scrape_duckduckgo_images_spec_witness :
    scrape_duckduckgo_images "dress" 5 (fun _ => .error ()) =
      List.replicate 5 get_placeholder_image :=
  (scrape_duckduckgo_images_spec "dress" 5 (fun _ => .error ())
    (by decide)).1 () rfl

/-- Oracle for which only the watch lookup succeeds; every other raises. -/
def watchOnlyOracle : String → Except Unit (List ImgField) :=
  fun s =>
    if s = "watch accessory" then .ok [ImgField.str "http://w"] else .error ()

/-- Oracle for which only the belt lookup succeeds; every other raises. -/
def beltOnlyOracle : String → Except Unit (List ImgField) :=
  fun s =>
    if s = "belt accessory" then .ok [ImgField.str "http://b"] else .error ()

/-- Claim C2 counterexample: in the batch watch-then-belt, where the watch
lookup raises and the belt lookup would succeed (alone it yields an entry),
the resulting map is empty rather than having exactly the belt entry — the
watch error aborted the belt lookup. -/
theorem fetch_error_aborts_batch :
    fetch_accessory_images beltOnlyOracle ["watch", "belt"] = [] ∧
    fetch_accessory_images beltOnlyOracle ["belt"] =
      [("belt", ImgField.str "http://b")] :=
  ⟨rfl, rfl⟩

/-- Claim C2 amended: an exception during one item's lookup is not raised
to the route caller — the map built so far is returned — but it aborts
every later lookup of the same batch: when the lookups before the failing
item return normally, the batch result equals the result for those earlier
items alone, so failure is isolated only in the forward direction. -/
theorem fetch_accessory_images_error_isolation
    (oracle : String → Except Unit (List ImgField))
    (pre : List String) (item : String) (post : List String)
    (hpre : ∀ i ∈ pre, ∃ rs, oracle (i ++ " accessory") = .ok rs)
    (herr : oracle (item ++ " accessory") = .error ()) :
    fetch_accessory_images oracle (pre ++ item :: post) =
      fetch_accessory_images oracle pre :=
  fetchGo_error_skips_rest oracle item post herr pre [] hpre

/-- Witness for C2 (amended): watch succeeds, belt raises; the batch result
equals the watch-only result, which has exactly the watch entry. -/
theorem fetch_accessory_images_error_isolation_witness :
    fetch_accessory_images watchOnlyOracle (["watch"] ++ "belt" :: []) =
      fetch_accessory_images watchOnlyOracle ["watch"] ∧
    fetch_accessory_images watchOnlyOracle ["watch"] =
      [("watch", ImgField.str "http://w")] :=
  ⟨fetch_accessory_images_error_isolation watchOnlyOracle ["watch"] "belt" []
      (by
        intro i hi
        simp at hi
        subst hi
        exact ⟨[ImgField.str "http://w"], rfl⟩)
      rfl,
   rfl⟩

/-- Oracle whose single record carries a non-http string URL. -/
def ftpOracle : String → Except Unit (List ImgField) :=
  fun _ => .ok [ImgField.str "ftp://x"]

/-- Claim C9 counterexample: a record whose image field is the string
`ftp://x` — truthy but not beginning with `http` — is accepted into the
accessory image map, refuting the claim that both consumers require a
string beginning with `http`. -/
theorem accessory_map_accepts_non_http :
    fetch_accessory_images ftpOracle ["belt"] =
      [("belt", ImgField.str "ftp://x")] ∧
    pyStartsWith "ftp://x" "http" = false :=
  ⟨rfl, by decide⟩

/-- Claim C9 amended: the primary image list takes a URL from a record only
when its image field is a string beginning with `http`; the accessory image
map, however, only requires the field to be truthy (a non-empty string or a
truthy non-string value), so non-http values can enter it. -/
theorem image_field_validation (n : Nat) (hn : 1 ≤ n) :
    (∀ (results : List ImgField) (u : String),
      u ∈ collectImages results n [] →
      ∃ r ∈ results, r = ImgField.str u ∧ pyStartsWith u "http" = true) ∧
    (∀ (oracle : String → Except Unit (List ImgField)) (items : List String)
      (item : String) (v : ImgField),
      (item, v) ∈ fetch_accessory_images oracle items → v.truthy = true) := by
  constructor
  · intro results u hu
    rw [collectImages_eq_take results n [] (by simp; omega)] at hu
    simp only [List.nil_append] at hu
    have hmem : u ∈ validUrls results := List.mem_of_mem_take hu
    rcases List.mem_filterMap.mp hmem with ⟨r, hr, hru⟩
    refine ⟨r, hr, ?_⟩
    cases r with
    | absent => simp [ImgField.httpUrl] at hru
    | nonstr b => simp [ImgField.httpUrl] at hru
    | str s =>
      by_cases hsw : pyStartsWith s "http"
      · simp only [ImgField.httpUrl, hsw, if_true, Option.some.injEq] at hru
        subst hru
        exact ⟨rfl, hsw⟩
      · simp [ImgField.httpUrl, hsw] at hru
  · intro oracle items item v hv
    rcases fetchGo_mem_truthy oracle items [] (item, v) hv with hm | hm
    · simp at hm
    · exact hm

/-- Witness for C9 (amended): the non-http accessory entry of the
counterexample oracle indeed has a truthy image field. -/
theorem image_field_validation_witness :
    ImgField.truthy (ImgField.str "ftp://x") = true :=
  (image_field_validation 1 (by decide)).2 ftpOracle ["belt"] "belt"
    (ImgField.str "ftp://x") (by decide)

end DesignerDreamith
